import Mathlib

/-!
# Verification of the TooDone task/timer/alarm core (src/Productivity.py)

Shallow embedding of the task store, timer engine, alarm scheduler and
persistence gateway of `Productivity.py`.  Conventions:

* Python floats (timestamps, timer seconds) are modelled as `ℚ`.
* A Python value that may be missing from a dict is an `Option`; a field that
  `load_tasks` guards with both `setdefault` and an `isinstance` coercion is a
  `RawVal` (`absent` = key missing, `invalid` = present with the wrong runtime
  type, `val` = well-typed).  Both `absent` and `invalid` collapse to the same
  default in every modelled operation, exactly as in the source.
* Alarm dict fields that may be missing (`id`, `target_timestamp_unix`,
  `sound_file`) are encoded by the falsy defaults `""` and `0` once inside the
  in-memory `Alarm` record: every consumer in the source guards these fields
  with Python truthiness (`if alarm_id:`, `all([target, id, sound])`), for
  which `None`, `""` and `0` are indistinguishable.
* `os.path.exists` is an abstract predicate `soundExists : String → Bool`.
* The Kivy `Clock` registry `self.scheduled_alarms` (alarm id → event handle)
  is modelled by the list of its keys; `pop(id)` is `filter (· ≠ id)`,
  inserting a freshly scheduled event appends the id.
* GUI-only task fields never read by the modelled operations (`annotations`,
  `due_date`, `icon`, `localTime`, `subtasks_visible`, `todone`) are omitted.
-/

namespace TooDone

/-- A raw dict field that `load_tasks` both `setdefault`s and type-coerces:
`absent` = key missing, `invalid` = present but of the wrong runtime type. -/
inductive RawVal (α : Type) where
  | absent
  | invalid
  | val (a : α)

/-- Default extraction: mirrors `setdefault` (for `absent`) followed by the
`isinstance` coercion to the same default (for `invalid`). -/
def RawVal.getD {α : Type} : RawVal α → α → α
  | .val a, _ => a
  | .absent, d => d
  | .invalid, d => d

/-- One `titleHistory` entry: a dict with optional `title` and `timestamp`. -/
structure TitleEntry where
  title : Option String
  timestamp : Option String
deriving DecidableEq, Repr

/-- An in-memory alarm record (`{'id', 'target_timestamp_unix', 'sound_file',
'enabled'}`); a missing id / target / sound file is encoded by the Python-falsy
values `""` / `0` / `""`. -/
structure Alarm where
  id : String
  targetTimestampUnix : ℚ
  soundFile : String
  enabled : Bool
deriving DecidableEq, Repr

/-- A raw alarm dict as it appears in the persisted JSON document. -/
structure RawAlarm where
  id : Option String
  targetTimestampUnix : Option ℚ
  soundFile : Option String
  enabled : Option Bool
deriving DecidableEq, Repr

/-- An in-memory task as produced by `load_tasks` / `add_task`; recursive via
`subtasks`. -/
inductive Task where
  | mk (title : Option String) (timer : ℚ) (timerRunning : Bool)
       (startTimeUnix : Option ℚ) (completed : Bool) (createdAt : String)
       (titleHistory : List TitleEntry) (alarms : List Alarm)
       (subtasks : List Task)

def Task.title : Task → Option String
  | .mk x _ _ _ _ _ _ _ _ => x

def Task.timer : Task → ℚ
  | .mk _ x _ _ _ _ _ _ _ => x

def Task.timerRunning : Task → Bool
  | .mk _ _ x _ _ _ _ _ _ => x

def Task.startTimeUnix : Task → Option ℚ
  | .mk _ _ _ x _ _ _ _ _ => x

def Task.completed : Task → Bool
  | .mk _ _ _ _ x _ _ _ _ => x

def Task.createdAt : Task → String
  | .mk _ _ _ _ _ x _ _ _ => x

def Task.titleHistory : Task → List TitleEntry
  | .mk _ _ _ _ _ _ x _ _ => x

def Task.alarms : Task → List Alarm
  | .mk _ _ _ _ _ _ _ x _ => x

def Task.subtasks : Task → List Task
  | .mk _ _ _ _ _ _ _ _ x => x

/-- Replace the timer-engine fields (`timer_running`, `start_time_unix`,
`timer`) of a task. -/
def Task.setTimerState : Task → Bool → Option ℚ → ℚ → Task
  | .mk a _ _ _ e f g h i, r, st, tm => .mk a tm r st e f g h i

/-- Replace the `alarms` list of a task. -/
def Task.setAlarms : Task → List Alarm → Task
  | .mk a b c d e f g _ i, al => .mk a b c d e f g al i

/-- Replace the current title and the `titleHistory` of a task. -/
def Task.setTitleAndHistory : Task → Option String → List TitleEntry → Task
  | .mk _ b c d e f _ h i, ti, hi => .mk ti b c d e f hi h i

/-- Set the `enabled` flag of an alarm record. -/
def Alarm.setEnabled (a : Alarm) (e : Bool) : Alarm :=
  { a with enabled := e }

/-- A raw task dict as found in the persisted JSON document (field names as in
the source: `task`, `timer_running`, `completed`, `timer`, `start_time_unix`,
`createdAt`, `titleHistory`, `alarms`, legacy `start_time`, `subtasks`). -/
inductive RawTask where
  | mk (title : Option String) (timerRunning : Option Bool)
       (completed : RawVal Bool) (timer : RawVal ℚ) (startTimeUnix : RawVal ℚ)
       (createdAt : Option String) (titleHistory : RawVal (List TitleEntry))
       (alarms : RawVal (List RawAlarm)) (startTime : Option ℚ)
       (subtasks : List RawTask)

/-- Python truthiness of an optional number (`None` and `0` are falsy). -/
def truthyNum : Option ℚ → Bool
  | none => false
  | some q => q != 0

/-- Python truthiness of an optional string (`None` and `""` are falsy). -/
def truthyStr : Option String → Bool
  | none => false
  | some s => s != ""

/-- Collapse a raw alarm dict to the in-memory record, encoding missing fields
by their falsy stand-ins (see module docstring). -/
def toAlarm (a : RawAlarm) : Alarm :=
  { id := a.id.getD "", targetTimestampUnix := a.targetTimestampUnix.getD 0,
    soundFile := a.soundFile.getD "", enabled := a.enabled.getD false }

/-! ## Loading (`load_tasks` / `_initialize_subtasks`) -/

mutual
/-- `_initialize_subtasks`: recursively applies `setdefault` defaults to every
subtask.  Unlike the top-level loop of `load_tasks` it performs no title
fallback, no `isinstance` re-coercion, no alarm filtering and no
`titleHistory` append. -/
def initializeSubtask (nowIso : String) : RawTask → Task
  | .mk title timerRunning completed timer startTimeUnix createdAt
      titleHistory alarms _startTime subtasks =>
    Task.mk title (timer.getD 0) (timerRunning.getD false)
      (match startTimeUnix with | .val q => some q | _ => none)
      (completed.getD false) (createdAt.getD nowIso) (titleHistory.getD [])
      ((alarms.getD []).map toAlarm)
      (initializeSubtaskList nowIso subtasks)

def initializeSubtaskList (nowIso : String) : List RawTask → List Task
  | [] => []
  | t :: ts => initializeSubtask nowIso t :: initializeSubtaskList nowIso ts
end

/-- The deterministic part of the generated fallback alarm id
`f"{i}_{alarm_index}_{time.time()}_{uuid4().hex[:6]}"` (the clock/uuid suffix
carries no semantic weight in any modelled operation). -/
def defaultAlarmId (taskIdx alarmIdx : ℕ) : String :=
  toString taskIdx ++ "_" ++ toString alarmIdx ++ "_gen"

/-- The alarm-normalisation loop of `load_tasks`: `setdefault` the fields of
each alarm dict (generating a fallback id) and keep only entries whose
`target_timestamp_unix` and `sound_file` are truthy. -/
def loadAlarms (taskIdx : ℕ) (l : List RawAlarm) : List Alarm :=
  l.enum.filterMap fun p =>
    let a : RawAlarm :=
      { id := some (p.2.id.getD (defaultAlarmId taskIdx p.1)),
        targetTimestampUnix := p.2.targetTimestampUnix,
        soundFile := p.2.soundFile,
        enabled := some (p.2.enabled.getD false) }
    if truthyNum a.targetTimestampUnix && truthyStr a.soundFile then
      some (toAlarm a)
    else none

/-- `f"Untitled Task {i+1}"`. -/
def untitledFallback (i : ℕ) : String := "Untitled Task " ++ toString (i + 1)

/-- The title-promotion guard of `load_tasks`: the raw `titleHistory` must be
present, truthy, a list, and its last entry must carry a truthy `title`. -/
def historyFallbackTitle (h : RawVal (List TitleEntry)) : Option String :=
  match h with
  | .val l =>
    match l.getLast? with
    | some e =>
      match e.title with
      | some s => if s != "" then some s else none
      | none => none
    | none => none
  | _ => none

/-- Title resolution of `load_tasks`: keep a present, non-whitespace title,
otherwise promote the last `titleHistory` title, otherwise `"Untitled Task N"`. -/
def loadTitle (i : ℕ) (title : Option String)
    (titleHistory : RawVal (List TitleEntry)) : String :=
  match title with
  | some s =>
    if s.trim != "" then s
    else (historyFallbackTitle titleHistory).getD (untitledFallback i)
  | none => (historyFallbackTitle titleHistory).getD (untitledFallback i)

/-- The append-unless-last-entry pattern shared by `load_tasks` and
`save_title_action`: append `title` (time-stamped with `ts`) unless it is
already the last entry's title. -/
def appendCurrentTitle (hist0 : List TitleEntry) (title ts : String) :
    List TitleEntry :=
  match hist0.getLast? with
  | none => hist0 ++ [TitleEntry.mk (some title) (some ts)]
  | some e =>
    if e.title ≠ some title then
      hist0 ++ [TitleEntry.mk (some title) (some ts)]
    else hist0

/-- The per-task body of the `load_tasks` loop at (0-based) position `i`:
title fallback, `setdefault` defaults, recursive subtask initialisation,
`isinstance` coercions, alarm filtering, `titleHistory` append, entry
timestamp defaults and the legacy `start_time` migration. -/
def loadTask (nowIso : String) (i : ℕ) : RawTask → Task
  | .mk rtitle rtimerRunning rcompleted rtimer rstartTimeUnix rcreatedAt
      rtitleHistory ralarms rstartTime rsubtasks =>
    let title := loadTitle i rtitle rtitleHistory
    let createdAt := rcreatedAt.getD nowIso
    let subtasks := initializeSubtaskList nowIso rsubtasks
    let timer := rtimer.getD 0
    let startTimeUnix := match rstartTimeUnix with | .val q => some q | _ => none
    let alarms := loadAlarms i (ralarms.getD [])
    let hist1 := appendCurrentTitle (rtitleHistory.getD []) title createdAt
    let hist2 := hist1.map fun e =>
      TitleEntry.mk e.title (some (e.timestamp.getD nowIso))
    let startTimeUnix2 :=
      match rstartTime with
      | some q => if startTimeUnix = none then some q else startTimeUnix
      | none => startTimeUnix
    Task.mk (some title) timer (rtimerRunning.getD false) startTimeUnix2
      (rcompleted.getD false) createdAt hist2 alarms subtasks

/-! ## The persisted JSON document (`tasks.json`) -/

/-- A JSON value sitting in the document's top-level object.  Values never
inspected by the core carry an opaque `prim` tag; the `tasks` payload is a
task-record array. -/
inductive JVal where
  | prim (tag : String)
  | taskArr (tasks : List RawTask)
  | arr (l : List JVal)
  | obj (l : List (String × JVal))

/-- A persisted task document: a legacy bare array of task records, or an
object with a `tasks` key plus arbitrary metadata fields. -/
inductive Doc where
  | arr (tasks : List RawTask)
  | obj (fields : List (String × JVal))

/-- First-match association-list lookup (JSON object key access). -/
def lookupField : List (String × JVal) → String → Option JVal
  | [], _ => none
  | (k', v) :: rest, k => if k' = k then some v else lookupField rest k

/-- Replace the value of key `k` in place (Python `dict` assignment: keeps
insertion order, appends a fresh key at the end). -/
def setField : List (String × JVal) → String → JVal → List (String × JVal)
  | [], k, v => [(k, v)]
  | (k', v') :: rest, k, v =>
    if k' = k then (k, v) :: rest else (k', v') :: setField rest k v

/-- The task array of a document (`data` if a list, else `data.get('tasks',
[])`).  A present `tasks` key of a non-array shape crashes the load loop in
the source, which the surrounding `except` turns into an empty store. -/
def docTasks : Doc → List RawTask
  | .arr ts => ts
  | .obj fields =>
    match lookupField fields "tasks" with
    | some (.taskArr ts) => ts
    | _ => []

/-- `load_tasks` applied to a parsed document: the normalised task list. -/
def loadTasksFromDoc (nowIso : String) (d : Doc) : List Task :=
  (docTasks d).enum.map fun p => loadTask nowIso p.1 p.2

/-! ## Saving (`save_tasks`) -/

/-- Serialise an in-memory alarm back to its dict form. -/
def serializeAlarm (a : Alarm) : RawAlarm :=
  { id := some a.id, targetTimestampUnix := some a.targetTimestampUnix,
    soundFile := some a.soundFile, enabled := some a.enabled }

mutual
/-- Serialise an in-memory task back to its dict form (the `isinstance`
re-coercions of `save_tasks` are identities on well-typed in-memory tasks). -/
def serializeTask : Task → RawTask
  | .mk title timer timerRunning startTimeUnix completed createdAt
      titleHistory alarms subtasks =>
    RawTask.mk title (some timerRunning) (.val completed) (.val timer)
      (match startTimeUnix with | some q => .val q | none => .absent)
      (some createdAt) (.val titleHistory) (.val (alarms.map serializeAlarm))
      none (serializeTaskList subtasks)

def serializeTaskList : List Task → List RawTask
  | [] => []
  | t :: ts => serializeTask t :: serializeTaskList ts
end

/-- `save_tasks`: re-read the existing file (`existing`), keep every metadata
field of it verbatim (a bare-array or unreadable file contributes an empty
metadata object), overwrite only the `tasks` key, and write the result. -/
def saveTasks (existing : Option Doc) (tasks : List Task) : Doc :=
  let meta : List (String × JVal) :=
    match existing with
    | some (.obj fields) => fields
    | _ => []
  .obj (setField meta "tasks" (.taskArr (serializeTaskList tasks)))

/-- Top-level key lookup on a saved/loaded document. -/
def docLookup (d : Doc) (k : String) : Option JVal :=
  match d with
  | .arr _ => none
  | .obj fields => lookupField fields k

/-! ## Timer engine (`start_timer`, `stop_timer`, `check_and_resume_timers`) -/

/-- `start_timer(index)`: no-op on an invalid index, a running task or a
completed task; else sets `timer_running=True` and `start_time_unix=now`. -/
def startTimer (now : ℚ) (tasks : List Task) (index : ℕ) : List Task :=
  match tasks[index]? with
  | none => tasks
  | some t =>
    if t.timerRunning || t.completed then tasks
    else tasks.set index (t.setTimerState true (some now) t.timer)

/-- `stop_timer(index)`: no-op on an invalid index or a non-running task; else
folds the elapsed time (when positive) into `timer` and clears the running
state.  A running task with `start_time_unix=None` hits an undefined local
(`elapsed`) in the source; the surrounding `except` leaves the task
unchanged. -/
def stopTimer (now : ℚ) (tasks : List Task) (index : ℕ) : List Task :=
  match tasks[index]? with
  | none => tasks
  | some t =>
    if !t.timerRunning then tasks
    else
      match t.startTimeUnix with
      | some st =>
        let finalTime := if 0 < now - st then t.timer + (now - st) else t.timer
        tasks.set index (t.setTimerState false none finalTime)
      | none => tasks

/-- The per-task body of `check_and_resume_timers` at wall-clock `now`:
a running task with a numeric start time folds the positive elapsed gap into
`timer` and restarts at `now` (clock skew keeps `timer` and only corrects the
start time); a running task without a numeric start time is force-stopped;
stopped tasks are untouched. -/
def resumeTask (now : ℚ) (t : Task) : Task :=
  if t.timerRunning then
    match t.startTimeUnix with
    | some st =>
      if 0 < now - st then t.setTimerState true (some now) (t.timer + (now - st))
      else t.setTimerState true (some now) t.timer
    | none => t.setTimerState false none t.timer
  else t

/-- `check_and_resume_timers`: the reconciliation pass over the top-level task
list (it does not recurse into subtasks). -/
def checkAndResumeTimers (now : ℚ) (tasks : List Task) : List Task :=
  tasks.map (resumeTask now)

/-! ## Task store (`delete_task`, `_insert_task_at_position`) -/

/-- The application state the modelled mutations touch: the top-level task
list, the selected index and the keys of the `scheduled_alarms` registry. -/
structure Store where
  tasks : List Task
  selectedIndex : Option ℕ
  scheduledAlarms : List String

/-- The alarm-cancellation loop of `delete_task`: for each alarm of the task
with a truthy id, pop the id from `scheduled_alarms` (and cancel the event). -/
def cancelTaskAlarms (alarms : List Alarm) (sched : List String) : List String :=
  alarms.foldl
    (fun acc a => if a.id ≠ "" then acc.filter (fun x => x ≠ a.id) else acc)
    sched

/-- `delete_task(index)`: bounds-checked; cancels the scheduled events of the
task's own `alarms` list (only — nested subtask alarms are not visited),
removes the task, and adjusts `selected_index`. -/
def deleteTask (s : Store) (index : ℕ) : Store :=
  match s.tasks[index]? with
  | none => s
  | some t =>
    { tasks := s.tasks.eraseIdx index
      selectedIndex :=
        match s.selectedIndex with
        | some si =>
          if si = index then none
          else if index < si then some (si - 1) else some si
        | none => none
      scheduledAlarms := cancelTaskAlarms t.alarms s.scheduledAlarms }

/-- `max(0, min(len(self.tasks), to_position))`. -/
def clampToPos (len : ℕ) (x : ℤ) : ℕ := (min (len : ℤ) (max 0 x)).toNat

/-- The body of `_insert_task_at_position` once `to_position` has been clamped
to `tp`: no-op when the clamped target equals `from` or `from+1`, else pop,
shift, re-insert and adjust the selected index. -/
def insertCore (tasks : List Task) (sel : Option ℕ) (fromIdx tp : ℕ) :
    List Task × Option ℕ :=
  if fromIdx = tp ∨ fromIdx + 1 = tp then (tasks, sel)
  else
    match tasks[fromIdx]? with
    | none => (tasks, sel)
    | some task =>
      let removed := tasks.eraseIdx fromIdx
      let tp2 := if fromIdx < tp then tp - 1 else tp
      let inserted := removed.insertIdx tp2 task
      let sel' :=
        match sel with
        | some si =>
          if si = fromIdx then some tp2
          else if fromIdx < si ∧ si ≤ tp2 then some (si - 1)
          else if tp2 ≤ si ∧ si < fromIdx then some (si + 1)
          else some si
        | none => none
      (inserted, sel')

/-- `_insert_task_at_position(from_idx, to_position)`: bounds-check the source
index, clamp the target to `[0, len]`, then reposition. -/
def insertTaskAtPosition (tasks : List Task) (sel : Option ℕ) (fromIdx : ℕ)
    (toPos : ℤ) : List Task × Option ℕ :=
  if fromIdx < tasks.length then
    insertCore tasks sel fromIdx (clampToPos tasks.length toPos)
  else (tasks, sel)

/-! ## Alarm scheduler (`_save_alarm`, `_schedule_alarm`,
`_reschedule_pending_alarms`) -/

/-- `_schedule_alarm(task_index, alarm_entry)`: returns the (possibly
disabled) alarm, the updated `scheduled_alarms` keys and the success flag.
Order of checks as in the source: data truthiness, `enabled`, sound-file
existence (disables on failure), positive delay (disables on failure), then
replace any previously scheduled event for the same id. -/
def scheduleAlarm (soundExists : String → Bool) (now : ℚ) (a : Alarm)
    (sched : List String) : Alarm × List String × Bool :=
  if ¬ (a.targetTimestampUnix ≠ 0 ∧ a.id ≠ "" ∧ a.soundFile ≠ "") then
    (a, sched, false)
  else if ¬ a.enabled then (a, sched, false)
  else if ¬ soundExists a.soundFile then (a.setEnabled false, sched, false)
  else if a.targetTimestampUnix - now ≤ 0 then (a.setEnabled false, sched, false)
  else (a, sched.filter (fun x => x ≠ a.id) ++ [a.id], true)

/-- The per-alarm body of `_reschedule_pending_alarms`: disabled alarms are
kept untouched; an enabled alarm with missing data, a missing sound file or a
past target is disabled (and kept); otherwise it is (re)scheduled, being
disabled if scheduling fails. -/
def rescheduleAlarmEntry (soundExists : String → Bool) (now : ℚ) (a : Alarm)
    (sched : List String) : Alarm × List String :=
  if a.enabled then
    if ¬ (a.targetTimestampUnix ≠ 0 ∧ a.id ≠ "" ∧ a.soundFile ≠ "") then
      (a.setEnabled false, sched)
    else if ¬ soundExists a.soundFile then (a.setEnabled false, sched)
    else if a.targetTimestampUnix ≤ now then (a.setEnabled false, sched)
    else
      let r := scheduleAlarm soundExists now a sched
      if r.2.2 then (r.1, r.2.1) else (r.1.setEnabled false, r.2.1)
  else (a, sched)

/-- `_reschedule_pending_alarms`, inner loop: every alarm of a task is
processed in order and kept (`alarms_to_keep`), threading the scheduler
registry through. -/
def rescheduleTaskAlarms (soundExists : String → Bool) (now : ℚ) :
    List Alarm → List String → List Alarm × List String
  | [], sched => ([], sched)
  | a :: rest, sched =>
    let r := rescheduleAlarmEntry soundExists now a sched
    let rr := rescheduleTaskAlarms soundExists now rest r.2
    (r.1 :: rr.1, rr.2)

/-- `_reschedule_pending_alarms`: iterate over the top-level task list (it
does not recurse into subtasks), re-arming or disabling every enabled alarm. -/
def reschedulePendingAlarms (soundExists : String → Bool) (now : ℚ) :
    List Task → List String → List Task × List String
  | [], sched => ([], sched)
  | t :: rest, sched =>
    let r := rescheduleTaskAlarms soundExists now t.alarms sched
    let rr := reschedulePendingAlarms soundExists now rest r.2
    (t.setAlarms r.1 :: rr.1, rr.2)

/-- The error taxonomy of alarm creation (`ValueError "Sound file not
found"` ↦ `missingResource`, `ValueError "Alarm time must be in the future."`
↦ `invalidAlarmTime`, `IndexError` ↦ `indexOutOfRange`). -/
inductive AlarmSetError where
  | missingResource
  | invalidAlarmTime
  | indexOutOfRange
deriving DecidableEq, Repr

/-- The validated core of `_save_alarm` once the GUI spinners have been
decoded to a sound-file path and a target timestamp: check the sound file
exists, check the target is strictly in the future, check the task index,
append an `enabled=True` alarm to the task and attempt to schedule it.  On
any error nothing is appended or scheduled. -/
def saveAlarm (soundExists : String → Bool) (now : ℚ) (soundFile : String)
    (target : ℚ) (alarmId : String) (tasks : List Task) (sched : List String)
    (taskIndex : ℕ) : Except AlarmSetError (List Task × List String) :=
  if ¬ soundExists soundFile then .error .missingResource
  else if target ≤ now then .error .invalidAlarmTime
  else
    match tasks[taskIndex]? with
    | none => .error .indexOutOfRange
    | some t =>
      let alarm : Alarm := ⟨alarmId, target, soundFile, true⟩
      let r := scheduleAlarm soundExists now alarm sched
      .ok (tasks.set taskIndex (t.setAlarms (t.alarms ++ [r.1])), r.2.1)

/-! ## Rename (`save_title_action` in `change_task_title_gui`) -/

/-- The timestamp literal hard-coded in `save_title_action`. -/
def renameTimestamp : String := "2025-04-18T16:35:40+08:00"

/-- The history update of `save_title_action`: append the old title unless it
is already the most recent entry, append the new title likewise, then prune
the history to its last 10 entries (`history[-10:]`). -/
def renameHistory (hist0 : List TitleEntry) (currentTitle newTitle : String) :
    List TitleEntry :=
  let hist2 :=
    appendCurrentTitle (appendCurrentTitle hist0 currentTitle renameTimestamp)
      newTitle renameTimestamp
  if hist2.length > 10 then hist2.drop (hist2.length - 10) else hist2

/-- `save_title_action`: reject an empty stripped input, no-op when the title
is unchanged, else update the title and its history via `renameHistory`. -/
def saveTitleAction (t : Task) (input : String) : Task :=
  let newTitle := input.trim
  if newTitle = "" then t
  else if newTitle = t.title.getD "" then t
  else
    t.setTitleAndHistory (some newTitle)
      (renameHistory t.titleHistory (t.title.getD "") newTitle)

/-- No two consecutive entries of a title list are equal (the claim's reading
of "no two consecutive identical entries", applied to the entry titles). -/
def consecDupFree : List (Option String) → Bool
  | [] => true
  | [_] => true
  | a :: b :: rest => if a = b then false else consecDupFree (b :: rest)

/-- The titles of a history, in order. -/
def entryTitles (l : List TitleEntry) : List (Option String) := l.map (·.title)

/-! ## Concrete instances used by witnesses and counterexamples -/

/-- A fresh task as `add_task` would build it (empty history and alarm list,
timer stopped at 0). -/
def mkTask (title : String) : Task :=
  Task.mk (some title) 0 false none false "c0" [] [] []

/-- A raw persisted task that is stopped (`timer_running: false`) but still
carries `start_time_unix: 500`. -/
def rawStopped : RawTask :=
  RawTask.mk (some "x") (some false) .absent .absent (.val 500) none .absent
    .absent none []

/-- The task `load_tasks` produces from `rawStopped` (and that reconciliation
leaves untouched). -/
def stoppedCexTask : Task :=
  Task.mk (some "x") 0 false (some 500) false "iso"
    [TitleEntry.mk (some "x") (some "iso")] [] []

/-- A subtask owning a scheduled alarm `subA`. -/
def subWithAlarm : Task :=
  Task.mk (some "sub") 0 false none false "c0" []
    [Alarm.mk "subA" 99 "s.wav" true] []

/-- A store whose only top-level task owns no alarms itself but has a subtask
owning the scheduled alarm `subA`. -/
def cexStore : Store :=
  { tasks := [Task.mk (some "top") 0 false none false "c0" [] [] [subWithAlarm]]
    selectedIndex := none
    scheduledAlarms := ["subA"] }

/-- The task of `twoAlarmStore`: it owns two enabled alarms `a1`, `a2`. -/
def twoAlarmTask : Task :=
  Task.mk (some "top") 0 false none false "c0" []
    [Alarm.mk "a1" 50 "s.wav" true, Alarm.mk "a2" 60 "s.wav" true] []

/-- A store whose only task owns two enabled alarms, both scheduled. -/
def twoAlarmStore : Store :=
  { tasks := [twoAlarmTask]
    selectedIndex := none
    scheduledAlarms := ["a1", "a2"] }

/-- A running task loaded with `start_time_unix = 1000` and `timer = 10`. -/
def c3Task : Task :=
  Task.mk (some "w") 10 true (some 1000) false "c0" [] [] []

/-- An enabled alarm whose target (5) is already in the past at startup. -/
def staleAlarm : Alarm := Alarm.mk "al1" 5 "s.wav" true

/-- A task owning only `staleAlarm`. -/
def staleTask : Task :=
  Task.mk (some "top") 0 false none false "c0" [] [staleAlarm] []

/-- A task whose loaded `titleHistory` already holds two identical
consecutive entries for its current title `a`. -/
def dupHistTask : Task :=
  Task.mk (some "a") 0 false none false "c0"
    [TitleEntry.mk (some "a") (some "ts"), TitleEntry.mk (some "a") (some "ts")]
    [] []

/-- A task titled `a` with the duplicate-free one-entry history `[a]`. -/
def aOneHistTask : Task :=
  Task.mk (some "a") 0 false none false "c0"
    [TitleEntry.mk (some "a") (some "ts")] [] []

/-- A document object with one recognised metadata key and one unknown key. -/
def metaFields : List (String × JVal) :=
  [("user_display_name", JVal.prim "alice"), ("my_unknown", JVal.prim "keepme")]

/-! ## Accessor lemmas -/

theorem setTimerState_timerRunning (t : Task) (r : Bool) (st : Option ℚ) (tm : ℚ) :
    (t.setTimerState r st tm).timerRunning = r := by
  cases t; rfl

theorem setTimerState_startTimeUnix (t : Task) (r : Bool) (st : Option ℚ) (tm : ℚ) :
    (t.setTimerState r st tm).startTimeUnix = st := by
  cases t; rfl

theorem setTimerState_timer (t : Task) (r : Bool) (st : Option ℚ) (tm : ℚ) :
    (t.setTimerState r st tm).timer = tm := by
  cases t; rfl

theorem setAlarms_alarms (t : Task) (al : List Alarm) :
    (t.setAlarms al).alarms = al := by
  cases t; rfl

theorem setTitleAndHistory_titleHistory (t : Task) (ti : Option String)
    (hi : List TitleEntry) : (t.setTitleAndHistory ti hi).titleHistory = hi := by
  cases t; rfl

theorem setTitleAndHistory_title (t : Task) (ti : Option String)
    (hi : List TitleEntry) : (t.setTitleAndHistory ti hi).title = ti := by
  cases t; rfl

/-! ## Helper lemmas about `cancelTaskAlarms` -/

theorem cancelTaskAlarms_cons (a : Alarm) (rest : List Alarm) (sched : List String) :
    cancelTaskAlarms (a :: rest) sched =
      cancelTaskAlarms rest
        (if a.id ≠ "" then sched.filter (fun x => x ≠ a.id) else sched) := rfl

/-- The cancellation loop never adds an id to the registry. -/
theorem not_mem_cancelTaskAlarms (alarms : List Alarm) (x : String) :
    ∀ sched, x ∉ sched → x ∉ cancelTaskAlarms alarms sched := by
  induction alarms with
  | nil => intro _ hx; exact hx
  | cons a rest ih =>
    intro sched hx
    rw [cancelTaskAlarms_cons]
    apply ih
    by_cases hid : a.id ≠ ""
    · rw [if_pos hid]
      intro hmem
      exact hx (List.mem_of_mem_filter hmem)
    · rwa [if_neg hid]

/-- Every truthy id of the processed alarm list is removed by the loop. -/
theorem id_not_mem_cancelTaskAlarms (a : Alarm) (hid : a.id ≠ "") :
    ∀ alarms, a ∈ alarms → ∀ sched, a.id ∉ cancelTaskAlarms alarms sched := by
  intro alarms
  induction alarms with
  | nil => intro h; cases h
  | cons b rest ih =>
    intro ha sched
    rw [cancelTaskAlarms_cons]
    rcases List.mem_cons.mp ha with rfl | hmem
    · apply not_mem_cancelTaskAlarms
      rw [if_pos hid]
      intro hmem2
      have h3 := List.of_mem_filter hmem2
      simp at h3
    · exact ih hmem _


/-! ## C1 — deleting a task and its alarms -/

/-- C1 (counterexample): the claim says `deleteTask` cancels the scheduled
callback of every alarm owned by the deleted *subtree*; but on a store whose
only task has a subtask owning the scheduled alarm `subA`, deleting the task
leaves `subA` in `scheduledAlarms` even though the task list is now empty. -/
theorem C1_subtree_alarm_survives_delete :
    (deleteTask cexStore 0).tasks = [] ∧
      "subA" ∈ (deleteTask cexStore 0).scheduledAlarms := by
  constructor
  · rfl
  · decide

/-- C1 (amended): `deleteTask` at a valid top-level index removes the task and
cancels the scheduled callback of every alarm owned by the task *itself* (not
of alarms owned by its nested subtasks); in particular, after deleting a task
owning two enabled alarms, `scheduledAlarms` contains neither id. -/
theorem C1_deleteTask_cancels_own_alarms (s : Store) (index : ℕ) (t : Task)
    (ht : s.tasks[index]? = some t) :
    (deleteTask s index).tasks = s.tasks.eraseIdx index ∧
      ∀ a ∈ t.alarms, a.id ≠ "" →
        a.id ∉ (deleteTask s index).scheduledAlarms := by
  unfold deleteTask
  rw [ht]
  exact ⟨rfl, fun a ha hid => id_not_mem_cancelTaskAlarms a hid t.alarms ha _⟩

/-- C1 witness: deleting the task of `twoAlarmStore` (it owns the two enabled
alarms `a1` and `a2`, both scheduled) leaves neither id scheduled. -/
theorem C1_deleteTask_cancels_own_alarms_witness :
    (deleteTask twoAlarmStore 0).tasks = [] ∧
      "a1" ∉ (deleteTask twoAlarmStore 0).scheduledAlarms ∧
      "a2" ∉ (deleteTask twoAlarmStore 0).scheduledAlarms := by
  have h := C1_deleteTask_cancels_own_alarms twoAlarmStore 0 twoAlarmTask rfl
  exact ⟨h.1, h.2 (Alarm.mk "a1" 50 "s.wav" true) (by decide) (by decide),
    h.2 (Alarm.mk "a2" 60 "s.wav" true) (by decide) (by decide)⟩

/-! ## C3 — reconciliation folds the elapsed gap into the timer -/

/-- C3: reconciling a running task with `start_time_unix = T`, `timer = S` at
time `N > T` yields `timer = S + (N - T)`, `start_time_unix = N` and
`timer_running = true`; `check_and_resume_timers` applies exactly this to
every task of the list. -/
theorem C3_reconcile_folds_elapsed (t : Task) (T N : ℚ)
    (hrun : t.timerRunning = true) (hst : t.startTimeUnix = some T)
    (hTN : T < N) :
    (resumeTask N t).timer = t.timer + (N - T) ∧
      (resumeTask N t).startTimeUnix = some N ∧
      (resumeTask N t).timerRunning = true ∧
      checkAndResumeTimers N [t] = [resumeTask N t] := by
  have hpos : 0 < N - T := sub_pos.mpr hTN
  have hres : resumeTask N t = t.setTimerState true (some N) (t.timer + (N - T)) := by
    unfold resumeTask
    rw [hrun, hst]
    simp [hpos]
  exact ⟨by rw [hres, setTimerState_timer], by rw [hres, setTimerState_startTimeUnix],
    by rw [hres, setTimerState_timerRunning], rfl⟩

/-- C3 witness: the concrete scenario `start_time_unix=1000, timer=10`
reconciled at `now=1100` ends with `timer=110`, `start_time_unix=1100`,
`timer_running=true`. -/
theorem C3_reconcile_folds_elapsed_witness :
    (resumeTask 1100 c3Task).timer = 110 ∧
      (resumeTask 1100 c3Task).startTimeUnix = some 1100 ∧
      (resumeTask 1100 c3Task).timerRunning = true := by
  have h := C3_reconcile_folds_elapsed c3Task 1000 1100 rfl rfl (by norm_num)
  refine ⟨?_, h.2.1, h.2.2.1⟩
  rw [h.1]
  norm_num [c3Task, Task.timer]

/-! ## C4 — load/save round-trip of metadata and unknown keys -/

/-- Overwriting one key leaves the lookup of every other key unchanged. -/
theorem lookupField_setField_ne (l : List (String × JVal)) (k k' : String)
    (v : JVal) (h : k ≠ k') : lookupField (setField l k' v) k = lookupField l k := by
  induction l with
  | nil => simp [setField, lookupField, Ne.symm h]
  | cons p rest ih =>
    by_cases hp : p.1 = k'
    · simp [setField, lookupField, hp, Ne.symm h]
    · simp only [setField, if_neg hp, lookupField]
      by_cases hk : p.1 = k
      · simp [hk]
      · simp [hk, ih]

/-- C4: saving immediately after loading a document object (with no
intervening mutation) preserves the value of every top-level key other than
`tasks` — recognised metadata keys and unknown keys alike — because
`save_tasks` re-reads the existing document and only overwrites `tasks`. -/
theorem C4_save_load_roundtrip_metadata (fields : List (String × JVal))
    (nowIso : String) (k : String) (hk : k ≠ "tasks") :
    docLookup (saveTasks (some (Doc.obj fields))
        (loadTasksFromDoc nowIso (Doc.obj fields))) k
      = docLookup (Doc.obj fields) k := by
  simp only [saveTasks, docLookup]
  exact lookupField_setField_ne fields k "tasks" _ hk

/-- C4 witness: on a document carrying the recognised key
`user_display_name` and the unknown key `my_unknown`, both values survive the
load-then-save cycle verbatim. -/
theorem C4_save_load_roundtrip_metadata_witness :
    docLookup (saveTasks (some (Doc.obj metaFields))
        (loadTasksFromDoc "iso" (Doc.obj metaFields))) "my_unknown"
        = some (JVal.prim "keepme") ∧
      docLookup (saveTasks (some (Doc.obj metaFields))
        (loadTasksFromDoc "iso" (Doc.obj metaFields))) "user_display_name"
        = some (JVal.prim "alice") := by
  constructor
  · rw [C4_save_load_roundtrip_metadata metaFields "iso" "my_unknown" (by decide)]
    rfl
  · rw [C4_save_load_roundtrip_metadata metaFields "iso" "user_display_name" (by decide)]
    rfl

/-! ## C8 — stop is a no-op when stopped; start twice arms once -/

/-- `start_timer` on an invalid index is a no-op. -/
theorem startTimer_eq_none (now : ℚ) (tasks : List Task) (i : ℕ)
    (h : tasks[i]? = none) : startTimer now tasks i = tasks := by
  unfold startTimer
  rw [h]

/-- `start_timer` on a running or completed task is a no-op. -/
theorem startTimer_eq_guard (now : ℚ) (tasks : List Task) (i : ℕ) (t : Task)
    (h : tasks[i]? = some t) (hc : (t.timerRunning || t.completed) = true) :
    startTimer now tasks i = tasks := by
  unfold startTimer
  rw [h]
  simp [hc]

/-- `start_timer` on a stopped, uncompleted task arms its timer. -/
theorem startTimer_eq_arm (now : ℚ) (tasks : List Task) (i : ℕ) (t : Task)
    (h : tasks[i]? = some t) (hc : ¬ (t.timerRunning || t.completed) = true) :
    startTimer now tasks i = tasks.set i (t.setTimerState true (some now) t.timer) := by
  unfold startTimer
  rw [h]
  simp [hc]

/-- C8: `stop_timer` on a task that is not running changes nothing, and a
second consecutive `start_timer` call (at any later clock value) changes
nothing beyond the first. -/
theorem C8_stop_noop_start_idempotent (now now2 : ℚ) (tasks : List Task)
    (i : ℕ) (t : Task) :
    (tasks[i]? = some t → t.timerRunning = false → stopTimer now tasks i = tasks) ∧
      startTimer now2 (startTimer now tasks i) i = startTimer now tasks i := by
  constructor
  · intro ht hr
    unfold stopTimer
    rw [ht]
    simp [hr]
  · cases h : tasks[i]? with
    | none =>
      rw [startTimer_eq_none now tasks i h, startTimer_eq_none now2 tasks i h]
    | some t0 =>
      by_cases hc : (t0.timerRunning || t0.completed) = true
      · rw [startTimer_eq_guard now tasks i t0 h hc,
          startTimer_eq_guard now2 tasks i t0 h hc]
      · rw [startTimer_eq_arm now tasks i t0 h hc]
        have hlen : i < tasks.length := (List.getElem?_eq_some_iff.mp h).1
        have hset : (tasks.set i (t0.setTimerState true (some now) t0.timer))[i]?
            = some (t0.setTimerState true (some now) t0.timer) := by
          simp [List.getElem?_set, hlen]
        have hc2 : ((t0.setTimerState true (some now) t0.timer).timerRunning
            || (t0.setTimerState true (some now) t0.timer).completed) = true := by
          simp [setTimerState_timerRunning]
        rw [startTimer_eq_guard now2 _ i _ hset hc2]

/-- C8 witness: at a concrete one-task store, stopping the stopped task is a
no-op and the second of two consecutive starts changes nothing. -/
theorem C8_stop_noop_start_idempotent_witness :
    stopTimer 7 [mkTask "t"] 0 = [mkTask "t"] ∧
      startTimer 9 (startTimer 7 [mkTask "t"] 0) 0 = startTimer 7 [mkTask "t"] 0 := by
  have h := C8_stop_noop_start_idempotent 7 9 [mkTask "t"] 0 (mkTask "t")
  exact ⟨h.1 rfl rfl, h.2⟩

/-! ## C9 — arbitrary repositioning with clamping and index tracking -/

/-- Clamping an already-clamped target is the identity. -/
theorem clampToPos_clamp (len : ℕ) (x : ℤ) :
    clampToPos len (min (len : ℤ) (max 0 x)) = clampToPos len x := by
  unfold clampToPos
  omega

/-- C9: `_insert_task_at_position` treats any target position exactly as its
clamp to `[0, len]`; and on a 5-task list, `insertAtPosition(fromIndex=0,
toPosition=3)` places the moved task at index 2 (post-removal shift) while a
selected index pointing at the moved task follows it to 2. -/
theorem C9_insertAtPosition_clamps_and_moves :
    (∀ (tasks : List Task) (sel : Option ℕ) (fromIdx : ℕ) (toPos : ℤ),
        insertTaskAtPosition tasks sel fromIdx toPos =
          insertTaskAtPosition tasks sel fromIdx
            (min (tasks.length : ℤ) (max 0 toPos))) ∧
      insertTaskAtPosition
          [mkTask "t1", mkTask "t2", mkTask "t3", mkTask "t4", mkTask "t5"]
          (some 0) 0 3
        = ([mkTask "t2", mkTask "t3", mkTask "t1", mkTask "t4", mkTask "t5"],
            some 2) := by
  constructor
  · intro tasks sel fromIdx toPos
    unfold insertTaskAtPosition
    rw [clampToPos_clamp]
  · rfl

/-! ## C2 — the running/start-time invariant after reconciliation -/

/-- C2 (counterexample): the claimed biconditional fails in the ⇐ direction.
A document task persisted with `timer_running: false` but
`start_time_unix: 500` loads and reconciles (at `now = 1000`) to a task that
still has `timer_running = false` and `start_time_unix = 500 > 0`: the
combination is *not* corrected on load. -/
theorem C2_stopped_task_keeps_positive_start :
    ¬ ∀ t ∈ checkAndResumeTimers 1000 (loadTasksFromDoc "iso" (Doc.arr [rawStopped])),
        (t.timerRunning = true ↔ ∃ q, t.startTimeUnix = some q ∧ 0 < q) := by
  intro h
  have hpipe : checkAndResumeTimers 1000 (loadTasksFromDoc "iso" (Doc.arr [rawStopped]))
      = [stoppedCexTask] := by with_unfolding_all rfl
  rw [hpipe] at h
  have h2 := (h stoppedCexTask (List.mem_singleton.mpr rfl)).mpr
    ⟨500, rfl, by norm_num⟩
  exact absurd h2 (by decide)

/-- A running task with a numeric start time is re-stamped to `now` and kept
running by the reconciliation body. -/
theorem resumeTask_running_start (now : ℚ) (t : Task)
    (hr : t.timerRunning = true) (st : ℚ) (hst : t.startTimeUnix = some st) :
    (resumeTask now t).startTimeUnix = some now ∧
      (resumeTask now t).timerRunning = true := by
  unfold resumeTask
  rw [hr, hst]
  by_cases he : 0 < now - st
  · simp [he, setTimerState_startTimeUnix, setTimerState_timerRunning]
  · simp [he, setTimerState_startTimeUnix, setTimerState_timerRunning]

/-- A running task without a numeric start time is force-stopped by the
reconciliation body. -/
theorem resumeTask_running_none (now : ℚ) (t : Task)
    (hr : t.timerRunning = true) (hst : t.startTimeUnix = none) :
    (resumeTask now t).timerRunning = false := by
  unfold resumeTask
  rw [hr, hst]
  simp [setTimerState_timerRunning]

/-- A stopped task is untouched by the reconciliation body. -/
theorem resumeTask_stopped (now : ℚ) (t : Task)
    (hr : t.timerRunning = false) : resumeTask now t = t := by
  unfold resumeTask
  simp [hr]

/-- C2 (amended): after `check_and_resume_timers` has run at a positive clock
value, every task with `timer_running = true` has `start_time_unix` set to a
number greater than 0 (namely the reconciliation time); the converse does not
hold — a stopped task may retain a stale positive `start_time_unix`, which
reconciliation does not clear. -/
theorem C2_reconcile_running_implies_positive_start (now : ℚ)
    (tasks : List Task) (hnow : 0 < now) :
    ∀ t' ∈ checkAndResumeTimers now tasks, t'.timerRunning = true →
      ∃ q, t'.startTimeUnix = some q ∧ 0 < q := by
  intro t' ht' hrun
  rw [checkAndResumeTimers, List.mem_map] at ht'
  obtain ⟨t, -, rfl⟩ := ht'
  by_cases hr : t.timerRunning = true
  · cases hst : t.startTimeUnix with
    | none =>
      rw [resumeTask_running_none now t hr hst] at hrun
      cases hrun
    | some st => exact ⟨now, (resumeTask_running_start now t hr st hst).1, hnow⟩
  · rw [Bool.not_eq_true] at hr
    rw [resumeTask_stopped now t hr] at hrun
    rw [hr] at hrun
    cases hrun

/-- C2 witness: the amended implication applied at `now = 1000` to the
reconciled form of the concrete running task `c3Task`. -/
theorem C2_reconcile_running_implies_positive_start_witness :
    ∃ q, (resumeTask 1000 c3Task).startTimeUnix = some q ∧ 0 < q := by
  have hmem : resumeTask 1000 c3Task ∈ checkAndResumeTimers 1000 [c3Task] :=
    List.mem_singleton.mpr rfl
  exact C2_reconcile_running_implies_positive_start 1000 [c3Task] (by norm_num)
    (resumeTask 1000 c3Task) hmem (by with_unfolding_all rfl)

/-! ## C10 — the loaded history always ends with the current title -/

/-- `(l.map f).getLast?` in terms of `l.getLast?`. -/
theorem getLast?_map_titleEntry (l : List TitleEntry)
    (f : TitleEntry → TitleEntry) :
    (l.map f).getLast? = l.getLast?.map f := List.getLast?_map f l

/-- The history append of `load_tasks` always produces a non-empty list whose
last entry's title is the current title. -/
theorem appendCurrentTitle_last (hist0 : List TitleEntry) (title createdAt : String) :
    appendCurrentTitle hist0 title createdAt ≠ [] ∧
      ((appendCurrentTitle hist0 title createdAt).getLast?).map (fun e => e.title)
        = some (some title) := by
  unfold appendCurrentTitle
  cases hlast : hist0.getLast? with
  | none =>
    constructor
    · simp
    · simp [List.getLast?_concat]
  | some e =>
    by_cases he : e.title ≠ some title
    · constructor
      · simp [he]
      · simp [he, List.getLast?_concat]
    · rw [not_not] at he
      constructor
      · intro hnil
        simp only [he, ne_eq, not_true_eq_false, if_false] at hnil
        rw [hnil] at hlast
        simp at hlast
      · simp [he, hlast]

/-- C10: every top-level task produced by the `load_tasks` normalisation has a
non-empty `titleHistory` whose last entry's title equals the task's current
title — including for documents that supplied no `titleHistory` at all. -/
theorem C10_load_titleHistory_last_is_title (nowIso : String) (i : ℕ)
    (rt : RawTask) :
    (loadTask nowIso i rt).titleHistory ≠ [] ∧
      ((loadTask nowIso i rt).titleHistory.getLast?).map (fun e => e.title)
        = some ((loadTask nowIso i rt).title) := by
  obtain ⟨rtitle, rtimerRunning, rcompleted, rtimer, rstartTimeUnix, rcreatedAt,
    rtitleHistory, ralarms, rstartTime, rsubtasks⟩ := rt
  simp only [loadTask, Task.titleHistory, Task.title]
  have h := appendCurrentTitle_last (rtitleHistory.getD [])
    (loadTitle i rtitle rtitleHistory) (rcreatedAt.getD nowIso)
  constructor
  · intro hnil
    exact h.1 (List.map_eq_nil_iff.mp hnil)
  · rw [getLast?_map_titleEntry, Option.map_map]
    exact h.2

/-! ## C7 — rename never introduces consecutive duplicates; history ≤ 10 -/

theorem consecDupFree_cons_cons (a b : Option String) (rest : List (Option String)) :
    consecDupFree (a :: b :: rest)
      = if a = b then false else consecDupFree (b :: rest) := rfl

theorem consecDupFree_tail (a : Option String) (l : List (Option String))
    (h : consecDupFree (a :: l) = true) : consecDupFree l = true := by
  cases l with
  | nil => rfl
  | cons b rest =>
    rw [consecDupFree_cons_cons] at h
    by_cases hab : a = b
    · rw [if_pos hab] at h
      cases h
    · rwa [if_neg hab] at h

/-- Appending one element whose value differs from the last keeps the list
free of consecutive duplicates. -/
theorem consecDupFree_append_single (l : List (Option String)) (x : Option String) :
    consecDupFree l = true → l.getLast? ≠ some x → consecDupFree (l ++ [x]) = true := by
  induction l with
  | nil => intro _ _; rfl
  | cons a rest ih =>
    intro h hlast
    cases rest with
    | nil =>
      have hax : a ≠ x := by
        intro he
        exact hlast (by rw [he]; rfl)
      show consecDupFree (a :: [x]) = true
      rw [consecDupFree_cons_cons, if_neg hax]
      rfl
    | cons b rest2 =>
      by_cases hab : a = b
      · rw [consecDupFree_cons_cons, if_pos hab] at h
        cases h
      · rw [consecDupFree_cons_cons, if_neg hab] at h
        have hlast2 : (b :: rest2).getLast? ≠ some x := by
          rwa [List.getLast?_cons_cons] at hlast
        have ih2 := ih h hlast2
        show consecDupFree (a :: ((b :: rest2) ++ [x])) = true
        rw [List.cons_append, consecDupFree_cons_cons, if_neg hab,
          ← List.cons_append]
        exact ih2

/-- Dropping a prefix keeps the list free of consecutive duplicates. -/
theorem consecDupFree_drop (n : ℕ) :
    ∀ l : List (Option String), consecDupFree l = true →
      consecDupFree (l.drop n) = true := by
  induction n with
  | zero => intro l h; exact h
  | succ n ih =>
    intro l h
    cases l with
    | nil => rfl
    | cons a rest => exact ih rest (consecDupFree_tail a rest h)

/-- The append-unless-last step never introduces a consecutive duplicate. -/
theorem appendCurrentTitle_dupfree (l : List TitleEntry) (title ts : String)
    (hd : consecDupFree (entryTitles l) = true) :
    consecDupFree (entryTitles (appendCurrentTitle l title ts)) = true := by
  unfold appendCurrentTitle
  cases hl : l.getLast? with
  | none =>
    have hnil : l = [] := List.getLast?_eq_none_iff.mp hl
    simp [hnil, entryTitles, consecDupFree]
  | some e =>
    show consecDupFree (entryTitles
      (if e.title ≠ some title then l ++ [TitleEntry.mk (some title) (some ts)]
       else l)) = true
    by_cases he : e.title ≠ some title
    · rw [if_pos he]
      have hform : entryTitles (l ++ [TitleEntry.mk (some title) (some ts)])
          = entryTitles l ++ [some title] := by
        simp [entryTitles]
      rw [hform]
      apply consecDupFree_append_single _ _ hd
      unfold entryTitles
      rw [List.getLast?_map, hl]
      intro hcontra
      simp at hcontra
      exact he hcontra
    · rw [if_neg he]
      exact hd

/-- The pruning step (`history[-10:]` when longer than 10) keeps the
duplicate-freedom. -/
theorem prune10_dupfree (l : List TitleEntry)
    (hd : consecDupFree (entryTitles l) = true) :
    consecDupFree (entryTitles
      (if l.length > 10 then l.drop (l.length - 10) else l)) = true := by
  by_cases hlen : l.length > 10
  · rw [if_pos hlen]
    have hm : entryTitles (l.drop (l.length - 10))
        = (entryTitles l).drop (l.length - 10) := List.map_drop _ _ _
    rw [hm]
    exact consecDupFree_drop _ _ hd
  · rwa [if_neg hlen]

/-- The pruning step bounds the history length by 10. -/
theorem prune10_len (l : List TitleEntry) :
    (if l.length > 10 then l.drop (l.length - 10) else l).length ≤ 10 := by
  by_cases hlen : l.length > 10
  · rw [if_pos hlen]
    rw [List.length_drop]
    omega
  · rw [if_neg hlen]
    omega

/-- The rename history update preserves duplicate-freedom and bounds the
length by 10. -/
theorem renameHistory_dupfree_len (hist0 : List TitleEntry) (cur new : String) :
    (consecDupFree (entryTitles hist0) = true →
      consecDupFree (entryTitles (renameHistory hist0 cur new)) = true) ∧
      (renameHistory hist0 cur new).length ≤ 10 := by
  unfold renameHistory
  constructor
  · intro hd
    exact prune10_dupfree _
      (appendCurrentTitle_dupfree _ _ _ (appendCurrentTitle_dupfree _ _ _ hd))
  · exact prune10_len _

/-- C7 (counterexample): the claim says that after a rename the resulting
`titleHistory` contains no two consecutive identical entries; but renaming
`dupHistTask` (whose loaded history is `[a, a]`, two identical entries, with
current title `a`) to `b` produces the history `[a, a, b]`, which still
contains the pre-existing consecutive duplicate. -/
theorem C7_existing_consecutive_duplicates_survive :
    consecDupFree (entryTitles (saveTitleAction dupHistTask "b").titleHistory)
      = false := by with_unfolding_all rfl

/-- C7 (amended): a rename to a new (non-empty, different) title never
*introduces* consecutive duplicates — if the history was free of consecutive
identical entries before the rename it stays so — and the resulting history
never exceeds 10 entries (oldest dropped first). -/
theorem C7_rename_preserves_dupfree_and_bound (t : Task) (input : String)
    (h1 : input.trim ≠ "") (h2 : input.trim ≠ t.title.getD "") :
    (consecDupFree (entryTitles t.titleHistory) = true →
      consecDupFree (entryTitles (saveTitleAction t input).titleHistory) = true) ∧
      (saveTitleAction t input).titleHistory.length ≤ 10 := by
  have hs : saveTitleAction t input
      = t.setTitleAndHistory (some input.trim)
          (renameHistory t.titleHistory (t.title.getD "") input.trim) := by
    unfold saveTitleAction
    rw [if_neg h1, if_neg h2]
  rw [hs, setTitleAndHistory_titleHistory]
  exact renameHistory_dupfree_len t.titleHistory (t.title.getD "") input.trim

/-- C7 witness: renaming a task titled `a` with the duplicate-free history
`[a]` to `b` keeps the history duplicate-free and within the bound. -/
theorem C7_rename_preserves_dupfree_and_bound_witness :
    (consecDupFree (entryTitles aOneHistTask.titleHistory) = true →
      consecDupFree (entryTitles
        (saveTitleAction aOneHistTask "b").titleHistory) = true) ∧
      (saveTitleAction aOneHistTask "b").titleHistory.length ≤ 10 :=
  C7_rename_preserves_dupfree_and_bound aOneHistTask "b"
    (of_decide_eq_true (by with_unfolding_all rfl))
    (of_decide_eq_true (by with_unfolding_all rfl))

/-! ## C6 — alarm-creation validation -/

/-- Under the conditions that hold on the success path of `_save_alarm`
(enabled, sound file present, strictly-future target), `_schedule_alarm`
leaves the alarm record unchanged. -/
theorem scheduleAlarm_fst_of_valid (s : String → Bool) (now : ℚ) (a : Alarm)
    (sched : List String) (hen : a.enabled = true)
    (hsnd : s a.soundFile = true) (hfut : ¬ a.targetTimestampUnix - now ≤ 0) :
    (scheduleAlarm s now a sched).1 = a := by
  unfold scheduleAlarm
  split_ifs with h1
  · rfl
  · rfl

/-- C6: alarm creation fails with `missingResource` when the chosen sound
file does not exist, fails with `invalidAlarmTime` when the target timestamp
is not strictly in the future, and succeeds only when both validations pass —
in which case (and only then) an `enabled=true` alarm is appended to the
addressed task. -/
theorem C6_saveAlarm_validation (s : String → Bool) (now target : ℚ)
    (sf alarmId : String) (tasks : List Task) (sched : List String)
    (taskIndex : ℕ) :
    (s sf = false →
      saveAlarm s now sf target alarmId tasks sched taskIndex
        = .error .missingResource) ∧
      (s sf = true → target ≤ now →
        saveAlarm s now sf target alarmId tasks sched taskIndex
          = .error .invalidAlarmTime) ∧
      ∀ p, saveAlarm s now sf target alarmId tasks sched taskIndex = .ok p →
        s sf = true ∧ now < target ∧
          ∀ t, tasks[taskIndex]? = some t →
            p.1 = tasks.set taskIndex
              (t.setAlarms (t.alarms ++ [Alarm.mk alarmId target sf true])) := by
  refine ⟨?_, ?_, ?_⟩
  · intro hs
    have hns : ¬ (s sf = true) := by simp [hs]
    unfold saveAlarm
    rw [if_pos hns]
  · intro hs hle
    unfold saveAlarm
    rw [if_neg (not_not_intro hs), if_pos hle]
  · intro p hp
    unfold saveAlarm at hp
    by_cases hs : s sf = true
    · rw [if_neg (not_not_intro hs)] at hp
      by_cases hle : target ≤ now
      · rw [if_pos hle] at hp
        cases hp
      · rw [if_neg hle] at hp
        refine ⟨hs, lt_of_not_le hle, ?_⟩
        intro t ht
        rw [ht] at hp
        have hfut : ¬ (Alarm.mk alarmId target sf true).targetTimestampUnix - now ≤ 0 := by
          intro hc
          exact hle (sub_nonpos.mp hc)
        have hfst := scheduleAlarm_fst_of_valid s now
          (Alarm.mk alarmId target sf true) sched rfl hs hfut
        simp only [hfst] at hp
        exact (Except.ok.inj hp).symm ▸ rfl
    · rw [if_pos hs] at hp
      cases hp

/-- C6 witness: with the sound file reported missing, creation fails with
`missingResource`; with `now = 100` past the target `10`, it fails with
`invalidAlarmTime`; with `now = 5` and the sound present, it succeeds and the
validations `soundExists ∧ now < target` indeed held. -/
theorem C6_saveAlarm_validation_witness :
    saveAlarm (fun _ => false) 0 "x.wav" 10 "id1" [mkTask "t"] [] 0
        = .error .missingResource ∧
      saveAlarm (fun _ => true) 100 "x.wav" 10 "id1" [mkTask "t"] [] 0
        = .error .invalidAlarmTime ∧
      (5:ℚ) < 10 := by
  refine ⟨(C6_saveAlarm_validation (fun _ => false) 0 10 "x.wav" "id1"
      [mkTask "t"] [] 0).1 rfl,
    (C6_saveAlarm_validation (fun _ => true) 100 10 "x.wav" "id1"
      [mkTask "t"] [] 0).2.1 rfl (by norm_num), ?_⟩
  exact ((C6_saveAlarm_validation (fun _ => true) 5 10 "x.wav" "id1"
      [mkTask "t"] [] 0).2.2
    ([(mkTask "t").setAlarms [Alarm.mk "id1" 10 "x.wav" true]], ["id1"])
    (by with_unfolding_all rfl)).2.1

/-! ## C5 — stale enabled alarms are disabled, kept, and not scheduled -/

theorem rescheduleTaskAlarms_cons (s : String → Bool) (now : ℚ) (b : Alarm)
    (rest : List Alarm) (sched : List String) :
    rescheduleTaskAlarms s now (b :: rest) sched
      = ((rescheduleAlarmEntry s now b sched).1
            :: (rescheduleTaskAlarms s now rest
                  (rescheduleAlarmEntry s now b sched).2).1,
          (rescheduleTaskAlarms s now rest
            (rescheduleAlarmEntry s now b sched).2).2) := rfl

theorem reschedulePendingAlarms_cons (s : String → Bool) (now : ℚ) (t : Task)
    (rest : List Task) (sched : List String) :
    reschedulePendingAlarms s now (t :: rest) sched
      = (t.setAlarms (rescheduleTaskAlarms s now t.alarms sched).1
            :: (reschedulePendingAlarms s now rest
                  (rescheduleTaskAlarms s now t.alarms sched).2).1,
          (reschedulePendingAlarms s now rest
            (rescheduleTaskAlarms s now t.alarms sched).2).2) := rfl

/-- An enabled alarm whose target is not in the future is disabled in place
and schedules nothing. -/
theorem rescheduleAlarmEntry_stale (s : String → Bool) (now : ℚ) (a : Alarm)
    (sched : List String) (hen : a.enabled = true)
    (hpast : a.targetTimestampUnix ≤ now) :
    rescheduleAlarmEntry s now a sched = (a.setEnabled false, sched) := by
  unfold rescheduleAlarmEntry
  rw [hen]
  rw [if_pos rfl]
  split_ifs with h1 h2
  · rfl
  · rfl
  · rfl

/-- Evaluation of `_schedule_alarm` on the success path. -/
theorem scheduleAlarm_success_eval (s : String → Bool) (now : ℚ) (a : Alarm)
    (sched : List String)
    (htr : a.targetTimestampUnix ≠ 0 ∧ a.id ≠ "" ∧ a.soundFile ≠ "")
    (hen : a.enabled = true) (hsnd : s a.soundFile = true)
    (hfut : ¬ a.targetTimestampUnix - now ≤ 0) :
    scheduleAlarm s now a sched
      = (a, sched.filter (fun x => x ≠ a.id) ++ [a.id], true) := by
  unfold scheduleAlarm
  rw [if_neg (not_not_intro htr), if_neg (not_not_intro hen),
    if_neg (not_not_intro hsnd), if_neg hfut]

/-- The registry after processing one alarm: unchanged, or (on the success
path only) updated with that alarm's id at the end. -/
theorem rescheduleAlarmEntry_snd (s : String → Bool) (now : ℚ) (a : Alarm)
    (sched : List String) :
    (rescheduleAlarmEntry s now a sched).2 = sched ∨
      ((rescheduleAlarmEntry s now a sched).2
          = sched.filter (fun x => x ≠ a.id) ++ [a.id]
        ∧ a.enabled = true ∧ now < a.targetTimestampUnix) := by
  by_cases hen : a.enabled = true
  · by_cases h1 : a.targetTimestampUnix ≠ 0 ∧ a.id ≠ "" ∧ a.soundFile ≠ ""
    · by_cases h2 : s a.soundFile = true
      · by_cases h3 : a.targetTimestampUnix ≤ now
        · left
          rw [rescheduleAlarmEntry_stale s now a sched hen h3]
        · right
          have hfut : ¬ a.targetTimestampUnix - now ≤ 0 := fun hc =>
            h3 (sub_nonpos.mp hc)
          have hsa := scheduleAlarm_success_eval s now a sched h1 hen h2 hfut
          have heval : rescheduleAlarmEntry s now a sched
              = (a, sched.filter (fun x => x ≠ a.id) ++ [a.id]) := by
            unfold rescheduleAlarmEntry
            rw [hen, if_pos rfl, if_neg (not_not_intro h1),
              if_neg (not_not_intro h2), if_neg h3, hsa]
            rfl
          exact ⟨by rw [heval], hen, lt_of_not_le h3⟩
      · left
        have heval : rescheduleAlarmEntry s now a sched
            = (a.setEnabled false, sched) := by
          unfold rescheduleAlarmEntry
          rw [hen, if_pos rfl, if_neg (not_not_intro h1), if_pos h2]
        rw [heval]
    · left
      have heval : rescheduleAlarmEntry s now a sched
          = (a.setEnabled false, sched) := by
        unfold rescheduleAlarmEntry
        rw [hen, if_pos rfl, if_pos h1]
      rw [heval]
  · left
    have heval : rescheduleAlarmEntry s now a sched = (a, sched) := by
      unfold rescheduleAlarmEntry
      rw [if_neg hen]
    rw [heval]

/-- Every id present in the registry after processing one alarm either was
there before or belongs to that alarm, which must then be enabled with a
strictly future target. -/
theorem rescheduleAlarmEntry_sched_provenance (s : String → Bool) (now : ℚ)
    (a : Alarm) (sched : List String) (x : String)
    (hx : x ∈ (rescheduleAlarmEntry s now a sched).2) :
    x ∈ sched ∨ (x = a.id ∧ a.enabled = true ∧ now < a.targetTimestampUnix) := by
  rcases rescheduleAlarmEntry_snd s now a sched with h | ⟨h, hen, hfut⟩
  · rw [h] at hx
    exact Or.inl hx
  · rw [h] at hx
    rcases List.mem_append.mp hx with hf | hs
    · exact Or.inl (List.mem_of_mem_filter hf)
    · exact Or.inr ⟨List.mem_singleton.mp hs, hen, hfut⟩

/-- Positional form of the per-task loop on stale alarms. -/
theorem rescheduleTaskAlarms_stale (s : String → Bool) (now : ℚ) :
    ∀ (alarms : List Alarm) (sched : List String) (j : ℕ) (a : Alarm),
      alarms[j]? = some a → a.enabled = true → a.targetTimestampUnix ≤ now →
        (rescheduleTaskAlarms s now alarms sched).1[j]?
          = some (a.setEnabled false) := by
  intro alarms
  induction alarms with
  | nil =>
    intro sched j a hj
    simp at hj
  | cons b rest ih =>
    intro sched j a hj hen hpast
    cases j with
    | zero =>
      rw [rescheduleTaskAlarms_cons]
      simp only [List.getElem?_cons_zero] at hj ⊢
      obtain rfl : b = a := Option.some.inj hj
      rw [rescheduleAlarmEntry_stale s now b _ hen hpast]
    | succ j2 =>
      rw [rescheduleTaskAlarms_cons]
      simp only [List.getElem?_cons_succ] at hj ⊢
      exact ih _ j2 a hj hen hpast

/-- Positional form of `_reschedule_pending_alarms` on stale alarms: the
alarm record stays at its position in its task's alarm list, disabled. -/
theorem reschedulePendingAlarms_stale (s : String → Bool) (now : ℚ) :
    ∀ (tasks : List Task) (sched : List String) (i : ℕ) (t : Task) (j : ℕ)
      (a : Alarm), tasks[i]? = some t → t.alarms[j]? = some a →
      a.enabled = true → a.targetTimestampUnix ≤ now →
      ∃ al, (reschedulePendingAlarms s now tasks sched).1[i]?
          = some (t.setAlarms al) ∧ al[j]? = some (a.setEnabled false) := by
  intro tasks
  induction tasks with
  | nil =>
    intro sched i t j a hi
    simp at hi
  | cons t0 rest ih =>
    intro sched i t j a hi hj hen hpast
    cases i with
    | zero =>
      rw [reschedulePendingAlarms_cons]
      simp only [List.getElem?_cons_zero] at hi ⊢
      obtain rfl : t0 = t := Option.some.inj hi
      exact ⟨_, rfl, rescheduleTaskAlarms_stale s now t0.alarms sched j a hj hen hpast⟩
    | succ i2 =>
      rw [reschedulePendingAlarms_cons]
      simp only [List.getElem?_cons_succ] at hi ⊢
      exact ih _ i2 t j a hi hj hen hpast

/-- Registry provenance over one task's alarm list. -/
theorem rescheduleTaskAlarms_sched_provenance (s : String → Bool) (now : ℚ) :
    ∀ (alarms : List Alarm) (sched : List String) (x : String),
      x ∈ (rescheduleTaskAlarms s now alarms sched).2 →
        x ∈ sched ∨ ∃ a ∈ alarms,
          x = a.id ∧ a.enabled = true ∧ now < a.targetTimestampUnix := by
  intro alarms
  induction alarms with
  | nil =>
    intro sched x hx
    exact Or.inl hx
  | cons b rest ih =>
    intro sched x hx
    rw [rescheduleTaskAlarms_cons] at hx
    rcases ih _ x hx with hmem | ⟨a, ha, hprop⟩
    · rcases rescheduleAlarmEntry_sched_provenance s now b sched x hmem with h | h
      · exact Or.inl h
      · exact Or.inr ⟨b, List.mem_cons_self b rest, h⟩
    · exact Or.inr ⟨a, List.mem_cons_of_mem b ha, hprop⟩

/-- Registry provenance over the whole task list. -/
theorem reschedulePendingAlarms_sched_provenance (s : String → Bool) (now : ℚ) :
    ∀ (tasks : List Task) (sched : List String) (x : String),
      x ∈ (reschedulePendingAlarms s now tasks sched).2 →
        x ∈ sched ∨ ∃ t ∈ tasks, ∃ a ∈ t.alarms,
          x = a.id ∧ a.enabled = true ∧ now < a.targetTimestampUnix := by
  intro tasks
  induction tasks with
  | nil =>
    intro sched x hx
    exact Or.inl hx
  | cons t0 rest ih =>
    intro sched x hx
    rw [reschedulePendingAlarms_cons] at hx
    rcases ih _ x hx with hmem | ⟨t, ht, hrest⟩
    · rcases rescheduleTaskAlarms_sched_provenance s now t0.alarms sched x hmem
        with h | ⟨a, ha, hprop⟩
      · exact Or.inl h
      · exact Or.inr ⟨t0, List.mem_cons_self t0 rest, a, ha, hprop⟩
    · exact Or.inr ⟨t, List.mem_cons_of_mem t0 ht, hrest⟩

/-- C5: running `_reschedule_pending_alarms` from an empty registry, every
enabled alarm whose target is not in the future (for instance `now =
target+1`) is disabled in place — it stays at its position in its task's
alarm list with all fields unchanged except `enabled := false` — and,
provided no other alarm shares its id with a strictly future target, its id
is absent from the scheduled-callback registry. -/
theorem C5_stale_alarm_disabled_not_scheduled (s : String → Bool) (now : ℚ)
    (tasks : List Task) (i j : ℕ) (t : Task) (a : Alarm)
    (hi : tasks[i]? = some t) (hj : t.alarms[j]? = some a)
    (hen : a.enabled = true) (hpast : a.targetTimestampUnix ≤ now)
    (huniq : ∀ t' ∈ tasks, ∀ a' ∈ t'.alarms, a'.id = a.id →
      a'.targetTimestampUnix ≤ now) :
    (∃ al, (reschedulePendingAlarms s now tasks []).1[i]?
        = some (t.setAlarms al) ∧ al[j]? = some (a.setEnabled false)) ∧
      a.id ∉ (reschedulePendingAlarms s now tasks []).2 := by
  constructor
  · exact reschedulePendingAlarms_stale s now tasks [] i t j a hi hj hen hpast
  · intro hmem
    rcases reschedulePendingAlarms_sched_provenance s now tasks [] a.id hmem
      with h | ⟨t', ht', a', ha', hid, _, hfut⟩
    · cases h
    · exact absurd (huniq t' ht' a' ha' hid.symm) (not_le.mpr hfut)

/-- C5 witness: on a store with a single task owning the single enabled alarm
`al1` with target 5, rearming at `now = 6 = target+1` (sound file present)
disables the alarm in place and leaves the registry without `al1`. -/
theorem C5_stale_alarm_disabled_not_scheduled_witness :
    (∃ al, (reschedulePendingAlarms (fun _ => true) 6 [staleTask] []).1[0]?
        = some (staleTask.setAlarms al)
        ∧ al[0]? = some (staleAlarm.setEnabled false)) ∧
      "al1" ∉ (reschedulePendingAlarms (fun _ => true) 6 [staleTask] []).2 := by
  have h := C5_stale_alarm_disabled_not_scheduled (fun _ => true) 6 [staleTask]
    0 0 staleTask staleAlarm rfl rfl rfl (by norm_num [staleAlarm]) ?_
  · exact h
  · intro t' ht' a' ha' _
    rw [List.mem_singleton] at ht'
    subst ht'
    have ha2 : a' = staleAlarm := by
      simpa [staleTask, Task.alarms] using ha'
    rw [ha2]
    norm_num [staleAlarm]
